import Mathlib

/-!
Verification of the data-acquisition and search/pagination core of the
NextDex repository (`src/app/page.tsx`, `src/app/utils/helpers.ts`,
`src/app/components/Pagination.tsx`).

JavaScript strings are modelled as lists of characters; the JS string
operations used by the source (`toLowerCase`, `trim`, `startsWith`,
`split`, `slice`, `parseInt`) are given as executable Lean functions.
Network calls are modelled by oracle arguments: a `FetchOutcome` value
describes what one `fetch` call produced (parsed 2xx body, non-2xx
status, or a transport failure / abort).
-/

/-- A JavaScript string, as the list of its characters. -/
abbrev JStr := List Char

/-- Coerce a Lean string literal into the `JStr` model. -/
def strToL (s : String) : JStr := s.data

/-- JS whitespace characters relevant to `String.prototype.trim` (ASCII subset). -/
def isWS (c : Char) : Bool := c = ' ' || c = '\t' || c = '\n' || c = '\r'

/-- JS `String.prototype.toLowerCase` (ASCII behaviour). -/
def jsToLower (s : JStr) : JStr := s.map Char.toLower

/-- JS `String.prototype.trim`: strip whitespace from both ends. -/
def jsTrim (s : JStr) : JStr :=
  ((s.dropWhile isWS).reverse.dropWhile isWS).reverse

/-- JS `s.startsWith(q)` for JS strings. -/
def jsStartsWith (s q : JStr) : Bool := q.isPrefixOf s

/-- JS `s.split(sep)` for a single-character separator, JS semantics:
`"".split('-') = [""]`, adjacent separators yield empty components. -/
def jsSplitOn (sep : Char) : JStr → List JStr
  | [] => [[]]
  | c :: cs =>
    let rest := jsSplitOn sep cs
    if c = sep then [] :: rest
    else
      match rest with
      | [] => [[c]]
      | r :: rs => (c :: r) :: rs

/-- JS `Array.prototype.slice(start, stop)` for non-negative indices. -/
def jsSlice {α : Type} (start stop : Nat) (l : List α) : List α :=
  (l.drop start).take (stop - start)

/-- JS `Array.prototype.slice(start, stop)` with full JS semantics
(negative indices count from the end). -/
def jsSliceInt {α : Type} (l : List α) (start stop : Int) : List α :=
  let n : Int := l.length
  let s := if start < 0 then max (n + start) 0 else min start n
  let e := if stop < 0 then max (n + stop) 0 else min stop n
  (l.drop s.toNat).take (e - s).toNat

/-- Maximal leading run of decimal digits, as a number; `none` when there is
no leading digit (which `parseInt` reports as `NaN`). -/
def parseDigits (l : List Char) : Option Nat :=
  let ds := l.takeWhile Char.isDigit
  if ds = [] then none
  else some (ds.foldl (fun a c => a * 10 + (c.toNat - 48)) 0)

/-- JS `parseInt` in base 10: skip leading whitespace, optional sign, then the
maximal digit prefix; `none` models the `NaN` result. -/
def jsParseInt (s : JStr) : Option Int :=
  match s.dropWhile isWS with
  | '-' :: rest => (parseDigits rest).map (fun n => -(n : Int))
  | '+' :: rest => (parseDigits rest).map (fun n => (n : Int))
  | rest => (parseDigits rest).map (fun n => (n : Int))

/-- JS `Math.ceil(a / b)` for natural `a` and positive natural `b`. -/
def ceilDiv (a b : Nat) : Nat := (a + b - 1) / b

/-- Outcome of a single `fetch` call: parsed 2xx body, non-2xx status
(`response.ok` false), or a transport failure / abort (rejected promise). -/
inductive FetchOutcome (α : Type) where
  | ok (a : α)
  | httpError
  | failure
deriving DecidableEq

/-!  ## Name index (`fetchAllPokemonNames`, helpers.ts lines 161-184)  -/

/-- One entry of the in-memory name index built by `fetchAllPokemonNames`:
`{name, id}` where `id` came from `parseInt` and may be `NaN` (`none`). -/
structure NameEntry where
  name : JStr
  id : Option Int
deriving DecidableEq

/-- One element of the bulk listing's `results` array: `{name, url}`. -/
structure ListResult where
  name : JStr
  url : JStr
deriving DecidableEq

/-- Parsed body of `GET /pokemon?limit&offset`: `{count, results}`. -/
structure PokemonListResp where
  count : Nat
  results : List ListResult
deriving DecidableEq

/-- Models `parseInt(pokemon.url.split('/').slice(-2, -1)[0])` — the identifier
extraction used by `fetchAllPokemonNames` and by the browsing branch of
`loadPokemon`.  `none` models the silent `NaN` produced on a malformed
reference (indexing an empty slice yields `undefined`, and
`parseInt(undefined)` is `NaN`). -/
def extractIdFromUrl (url : JStr) : Option Int :=
  match (jsSliceInt (jsSplitOn '/' url) (-2) (-1)).head? with
  | none => none
  | some s => jsParseInt s

/-- Models `fetchAllPokemonNames` (helpers.ts 161-184), with the single bulk
`fetch` abstracted to its outcome.  The `catch` branch returns `[]`. -/
def fetchAllPokemonNames (resp : FetchOutcome PokemonListResp) : List NameEntry :=
  match resp with
  | .httpError => []
  | .failure => []
  | .ok data =>
      data.results.map (fun pokemon => { name := pokemon.name, id := extractIdFromUrl pokemon.url })

/-!  ## Search filter (`loadPokemon`, page.tsx lines 80-124)  -/

/-- The filter predicate of `loadPokemon`'s searching branch (page.tsx 86-102):
exact match, prefix match, or whole-word match after splitting on `'-'`. -/
def matchesSearch (normalizedSearchTerm : JStr) (pokemon : NameEntry) : Bool :=
  let pokemonName := jsToLower pokemon.name
  if pokemonName = normalizedSearchTerm then true
  else if jsStartsWith pokemonName normalizedSearchTerm then true
  else (jsSplitOn '-' pokemonName).any (fun word => word == normalizedSearchTerm)

/-- The three-entry index of the spec's concrete scenarios 1 and 2. -/
def sampleIndex : List NameEntry :=
  [⟨strToL "bulbasaur", some 1⟩, ⟨strToL "ivysaur", some 2⟩, ⟨strToL "venusaur-mega", some 3⟩]

/-!  ## Search / pagination engine (`loadPokemon`, page.tsx lines 73-156)  -/

/-- Items per page (page.tsx line 50). -/
def ITEMS_PER_PAGE : Nat := 12

/-- Models `Promise.all` over fallible per-element fetches: resolves to the list of
results in positional order, rejects as soon as any element rejects. -/
def promiseAll {β α : Type} (l : List β) (f : β → Except Unit α) : Except Unit (List α) :=
  match l with
  | [] => Except.ok []
  | x :: xs =>
    match f x, promiseAll xs f with
    | Except.ok a, Except.ok as => Except.ok (a :: as)
    | Except.error e, _ => Except.error e
    | Except.ok _, Except.error e => Except.error e

/-- The browsing branch of `loadPokemon` (page.tsx 132-145): fetch one page of
summaries, derive `totalPages` from the upstream count, extract each summary's
identifier from its reference URL and resolve it via the record fetcher.
`fetchList` maps `(limit, offset)` to the outcome of `fetchPokemonList`;
`fetchPoke` maps an identifier (possibly `NaN`) to the outcome of
`fetchPokemon`.  A thrown error anywhere lands in the `catch` (error state). -/
def loadPokemonBrowse {α : Type} (currentPage : Nat)
    (fetchList : Nat → Nat → FetchOutcome PokemonListResp)
    (fetchPoke : Option Int → Except Unit α) : Except Unit (Nat × List α) :=
  let offset := (currentPage - 1) * ITEMS_PER_PAGE
  match fetchList ITEMS_PER_PAGE offset with
  | .httpError => Except.error ()
  | .failure => Except.error ()
  | .ok list =>
    match promiseAll list.results (fun pokemon => fetchPoke (extractIdFromUrl pokemon.url)) with
    | Except.error e => Except.error e
    | Except.ok pokemonDetails => Except.ok (ceilDiv list.count ITEMS_PER_PAGE, pokemonDetails)

/-- Models `loadPokemon` (page.tsx 74-153): result is the pair
`(totalPages, pokemonList)` on success, or the error state set by the
`catch` block.  The searching branch is taken when the search term is a
non-empty string and the cached name index is non-empty; it filters the
index, slices the current page, recomputes `totalPages` from the full match
count, and resolves every sliced identifier. -/
def loadPokemon {α : Type} (allPokemonNames : List NameEntry) (searchTerm : JStr)
    (currentPage : Nat)
    (fetchList : Nat → Nat → FetchOutcome PokemonListResp)
    (fetchPoke : Option Int → Except Unit α) : Except Unit (Nat × List α) :=
  if searchTerm ≠ [] ∧ 0 < allPokemonNames.length then
    let normalizedSearchTerm := jsTrim (jsToLower searchTerm)
    let filteredNames :=
      jsSlice ((currentPage - 1) * ITEMS_PER_PAGE) (currentPage * ITEMS_PER_PAGE)
        (allPokemonNames.filter (matchesSearch normalizedSearchTerm))
    let totalFilteredItems :=
      (allPokemonNames.filter (matchesSearch normalizedSearchTerm)).length
    let totalPages := ceilDiv totalFilteredItems ITEMS_PER_PAGE
    match promiseAll filteredNames (fun pokemon => fetchPoke pokemon.id) with
    | Except.error e => Except.error e
    | Except.ok pokemonDetails => Except.ok (totalPages, pokemonDetails)
  else
    loadPokemonBrowse currentPage fetchList fetchPoke


/-!  ## Record fetcher (`fetchPokemon`, helpers.ts lines 34-132)  -/

/-- A PokeAPI named resource reference: `{name, url}`. -/
structure NamedRef where
  name : JStr
  url : JStr
deriving DecidableEq

/-- One element of a detail body's `effect_entries` array.  `effect` and
`short_effect` are optional strings (absent models JS `undefined`; the empty
string is also falsy for `||`). -/
structure EffectEntry where
  effect : Option JStr
  short_effect : Option JStr
  language : NamedRef
deriving DecidableEq

/-- Parsed body of an ability detail fetch (only the field the source reads). -/
structure AbilityDetails where
  effect_entries : List EffectEntry
deriving DecidableEq

/-- Parsed body of a move detail fetch.  `effect_entries` is accessed with
`?.` in the source, so it may be absent; `power`, `accuracy`, `pp` may be
`null`; `type` is accessed with `?.`. -/
structure MoveDetails where
  effect_entries : Option (List EffectEntry)
  power : Option Int
  accuracy : Option Int
  pp : Option Int
  move_type : Option NamedRef
deriving DecidableEq

/-- One element of the primary record's `abilities` array (`abilityData`). -/
structure AbilitySlot where
  ability : NamedRef
deriving DecidableEq

/-- One element of the primary record's `moves` array (`moveData`). -/
structure MoveSlot where
  move : NamedRef
deriving DecidableEq

/-- The primary record returned by `GET /pokemon/{id}` (the fields the
enrichment logic touches). -/
structure PokemonData where
  id : Option Int
  name : JStr
  abilities : List AbilitySlot
  moves : List MoveSlot
deriving DecidableEq

/-- Models `{...abilityData, description}` — an ability slot augmented with its
resolved (or sentinel) description. -/
structure EnrichedAbility where
  orig : AbilitySlot
  description : JStr
deriving DecidableEq

/-- Models `{...moveData, description, power, accuracy, pp, type}` — a move slot
augmented with the dependent fetch's data or with sentinel fields. -/
structure EnrichedMove where
  orig : MoveSlot
  description : JStr
  power : Option Int
  accuracy : Option Int
  pp : Option Int
  move_type : JStr
deriving DecidableEq

/-- Models `{...pokemon, abilities, moves}` — the record assembled by `fetchPokemon`. -/
structure EnrichedPokemon where
  id : Option Int
  name : JStr
  abilities : List EnrichedAbility
  moves : List EnrichedMove
deriving DecidableEq

/-- JS `x || d` for an optional string `x` (`undefined` and `""` are falsy). -/
def jsOrStr (x : Option JStr) (d : JStr) : JStr :=
  match x with
  | none => d
  | some s => if s = [] then d else s

/-- The per-ability enrichment closure (helpers.ts 44-69), with the dependent
fetch abstracted to its outcome.  A non-2xx response or a thrown error yields
the sentinel description; otherwise the English effect entry is looked up. -/
def enrichAbility (r : FetchOutcome AbilityDetails) (abilityData : AbilitySlot) : EnrichedAbility :=
  match r with
  | .httpError => ⟨abilityData, strToL "Description unavailable."⟩
  | .failure => ⟨abilityData, strToL "Description unavailable."⟩
  | .ok abilityDetails =>
    match abilityDetails.effect_entries.find? (fun entry => entry.language.name == strToL "en") with
    | none => ⟨abilityData, strToL "No description available."⟩
    | some englishEffect =>
        ⟨abilityData, jsOrStr englishEffect.effect (strToL "No description available.")⟩

/-- The per-move enrichment closure (helpers.ts 74-120).  A timeout (abort), a
transport error, or a non-2xx response yields the sentinel description and the
default `"normal"` type, leaving the numeric fields unset; on success the
description, `power`, `accuracy`, `pp` and type name are taken from the body. -/
def enrichMove (r : FetchOutcome MoveDetails) (moveData : MoveSlot) : EnrichedMove :=
  match r with
  | .httpError => ⟨moveData, strToL "Description unavailable.", none, none, none, strToL "normal"⟩
  | .failure => ⟨moveData, strToL "Description unavailable.", none, none, none, strToL "normal"⟩
  | .ok moveDetails =>
    let englishEffect :=
      (moveDetails.effect_entries.getD []).find? (fun entry => entry.language.name == strToL "en")
    let description :=
      match englishEffect with
      | none => strToL "No description available."
      | some entry =>
          jsOrStr entry.short_effect (jsOrStr entry.effect (strToL "No description available."))
    ⟨moveData, description, moveDetails.power, moveDetails.accuracy, moveDetails.pp,
      jsOrStr (moveDetails.move_type.map (fun t => t.name)) (strToL "normal")⟩

/-- Models `fetchPokemon` (helpers.ts 34-132).  The primary fetch outcome is
`primary`; `abilityFetch` and `moveFetch` map a dependent endpoint URL to the
outcome of its (staggered, possibly timed-out) fetch.  A failed primary fetch
is rethrown to the caller; per-sub-item failures are absorbed into sentinels.
Bundle A is capped at 4 items, bundle B at 20. -/
def fetchPokemon (primary : FetchOutcome PokemonData)
    (abilityFetch : JStr → FetchOutcome AbilityDetails)
    (moveFetch : JStr → FetchOutcome MoveDetails) : Except Unit EnrichedPokemon :=
  match primary with
  | .httpError => Except.error ()
  | .failure => Except.error ()
  | .ok pokemon =>
    let abilitiesWithDescriptions :=
      (pokemon.abilities.take 4).map
        (fun abilityData => enrichAbility (abilityFetch abilityData.ability.url) abilityData)
    let movesWithDetails :=
      (pokemon.moves.take 20).map
        (fun moveData => enrichMove (moveFetch moveData.move.url) moveData)
    Except.ok
      { id := pokemon.id, name := pokemon.name,
        abilities := abilitiesWithDescriptions, moves := movesWithDetails }

/-!  ## Pagination component and page-state machine
(`Pagination.tsx`, `handleSearchChange` page.tsx 164-167)  -/

/-- Integer interval `[lo, hi]` as a list (empty when `hi < lo`); models a
JS `for (let i = lo; i <= hi; i++)` push loop. -/
def intRange (lo hi : Int) : List Int :=
  (List.range (hi + 1 - lo).toNat).map (fun (i : Nat) => lo + (i : Int))

/-- Models `getPageNumbers` (Pagination.tsx): the numbered buttons rendered for the
given `currentPage`/`totalPages`; `none` models the `'...'` ellipsis entries.
The push sequence of the source is rendered as list concatenation. -/
def getPageNumbers (currentPage totalPages : Int) : List (Option Int) :=
  if totalPages ≤ 7 then
    [some 1] ++ (intRange 2 (totalPages - 1)).map some
      ++ (if totalPages > 1 then [some totalPages] else [])
  else
    [some 1] ++ (if currentPage > 3 then [none] else [])
      ++ (intRange (max 2 (currentPage - 1)) (min (totalPages - 1) (currentPage + 1))).map some
      ++ (if currentPage < totalPages - 2 then [none] else [])
      ++ (if totalPages > 1 then [some totalPages] else [])

/-- Session-fixed environment of the page-state machine: what
`fetchAllPokemonNames` will deliver, and the upstream catalog count used by
the browsing branch. -/
structure PageContext where
  fullIndex : List NameEntry
  browseCount : Nat

/-- The page-relevant React state of `Home` (page.tsx 29-50): the search
term, `currentPage`, `totalPages`, and the cached `allPokemonNames` index. -/
structure PageState where
  searchTerm : JStr
  currentPage : Int
  totalPages : Int
  index : List NameEntry
deriving DecidableEq

/-- The `totalPages` value after one run of the `loadPokemon` effect.  In the
searching branch `setTotalPages` runs before any record fetch, so the value is
always fresh there; in the browsing branch it is only set if the page-list
fetch succeeded (`listOk`), otherwise the previous value survives. -/
def recompute (ctx : PageContext) (listOk : Bool) (s : PageState) : Int :=
  if s.searchTerm ≠ [] ∧ 0 < s.index.length then
    ((ceilDiv (s.index.filter (matchesSearch (jsTrim (jsToLower s.searchTerm)))).length
        ITEMS_PER_PAGE : Nat) : Int)
  else if listOk then ((ceilDiv ctx.browseCount ITEMS_PER_PAGE : Nat) : Int)
  else s.totalPages

/-- Apply the `loadPokemon` effect rerun that follows every state change. -/
def reload (ctx : PageContext) (listOk : Bool) (s : PageState) : PageState :=
  { s with totalPages := recompute ctx listOk s }

/-- User interactions and asynchronous arrivals that change page state.  Each
carries whether the page-list fetch of the triggered reload succeeded. -/
inductive UiEvent where
  | searchChange (q : JStr) (listOk : Bool)
  | prevPage (listOk : Bool)
  | nextPage (listOk : Bool)
  | selectPage (p : Int) (listOk : Bool)
  | indexLoaded (listOk : Bool)

/-- One transition of the page-state machine.  `searchChange` is
`handleSearchChange` (sets the term and resets `currentPage` to 1);
`prevPage`/`nextPage`/`selectPage` are the Pagination buttons with their
`disabled` guards and clamping; `indexLoaded` is the arrival of
`fetchAllPokemonNames`.  Every transition is followed by the effect rerun. -/
inductive PageStep (ctx : PageContext) : PageState → UiEvent → PageState → Prop where
  | searchChange (s : PageState) (q : JStr) (ok : Bool) :
      PageStep ctx s (.searchChange q ok)
        (reload ctx ok { s with searchTerm := q, currentPage := 1 })
  | prevPage (s : PageState) (ok : Bool) (h : s.currentPage ≠ 1) :
      PageStep ctx s (.prevPage ok)
        (reload ctx ok { s with currentPage := max (s.currentPage - 1) 1 })
  | nextPage (s : PageState) (ok : Bool) (h : s.currentPage ≠ s.totalPages) :
      PageStep ctx s (.nextPage ok)
        (reload ctx ok { s with currentPage := min (s.currentPage + 1) s.totalPages })
  | selectPage (s : PageState) (p : Int) (ok : Bool)
      (h : some p ∈ getPageNumbers s.currentPage s.totalPages) :
      PageStep ctx s (.selectPage p ok) (reload ctx ok { s with currentPage := p })
  | indexLoaded (s : PageState) (ok : Bool) :
      PageStep ctx s (.indexLoaded ok) (reload ctx ok { s with index := ctx.fullIndex })

/-- The initial React state (page.tsx 29-50): empty term, page 1, zero total
pages, empty index. -/
def initialState : PageState := ⟨[], 1, 0, []⟩

/-- States reachable from the initial render. -/
inductive PageReachable (ctx : PageContext) : PageState → Prop where
  | init : PageReachable ctx initialState
  | step {s : PageState} {e : UiEvent} {s' : PageState} :
      PageReachable ctx s → PageStep ctx s e s' → PageReachable ctx s'

/-- Events in the restricted machine: user interactions whose reload's list
fetch succeeds; the index does not change mid-session. -/
inductive GoodEv : UiEvent → Prop where
  | search (q : JStr) : GoodEv (.searchChange q true)
  | prev : GoodEv (.prevPage true)
  | next : GoodEv (.nextPage true)
  | select (p : Int) : GoodEv (.selectPage p true)

/-- States reachable when the name index is fixed for the whole session and
every page-list fetch succeeds. -/
inductive PageReachableOk (ctx : PageContext) : PageState → Prop where
  | init : PageReachableOk ctx ⟨[], 1, 0, ctx.fullIndex⟩
  | step {s : PageState} {e : UiEvent} {s' : PageState} :
      PageReachableOk ctx s → PageStep ctx s e s' → GoodEv e → PageReachableOk ctx s'

/-- Inductive strengthening used to prove the page bound. -/
def StateInv (ctx : PageContext) (s : PageState) : Prop :=
  0 ≤ s.currentPage ∧ 0 ≤ s.totalPages ∧ s.currentPage ≤ max s.totalPages 1
    ∧ s.index = ctx.fullIndex
    ∧ (s.totalPages = recompute ctx true s ∨ (s.currentPage = 1 ∧ s.totalPages = 0))

/-- Context of the concrete C8 trace: the sample index arrives late, and the
upstream catalog has 37 entries (4 browse pages). -/
def ctx0 : PageContext := ⟨sampleIndex, 37⟩

/-- The state reached by: search `"x"` before the index arrives (browsing
semantics, 4 pages), go to page 2, then the index arrives and the searching
branch recomputes 0 total pages while `currentPage` stays 2. -/
def sBad : PageState := ⟨strToL "x", 2, 0, sampleIndex⟩

/-- A 13-entry index whose every name starts with `"a"` (13 matches for the
query `"a"`, hence 2 pages of size 12). -/
def idx13 : List NameEntry :=
  [⟨strToL "a1", some 1⟩, ⟨strToL "a2", some 2⟩, ⟨strToL "a3", some 3⟩,
   ⟨strToL "a4", some 4⟩, ⟨strToL "a5", some 5⟩, ⟨strToL "a6", some 6⟩,
   ⟨strToL "a7", some 7⟩, ⟨strToL "a8", some 8⟩, ⟨strToL "a9", some 9⟩,
   ⟨strToL "a10", some 10⟩, ⟨strToL "a11", some 11⟩, ⟨strToL "a12", some 12⟩,
   ⟨strToL "a13", some 13⟩]

/-- A one-ability, one-move primary record used to instantiate the
record-fetcher theorems. -/
def p0 : PokemonData :=
  ⟨some 1, strToL "bulbasaur",
   [⟨⟨strToL "overgrow", strToL "https://pokeapi.co/api/v2/ability/65/"⟩⟩],
   [⟨⟨strToL "tackle", strToL "https://pokeapi.co/api/v2/move/33/"⟩⟩]⟩

/-- The record `fetchPokemon` assembles from `p0` when the ability fetch
returns non-2xx and the move fetch times out: both sub-items degraded to
sentinels. -/
def e0 : EnrichedPokemon :=
  ⟨some 1, strToL "bulbasaur",
   [⟨⟨⟨strToL "overgrow", strToL "https://pokeapi.co/api/v2/ability/65/"⟩⟩,
     strToL "Description unavailable."⟩],
   [⟨⟨⟨strToL "tackle", strToL "https://pokeapi.co/api/v2/move/33/"⟩⟩,
     strToL "Description unavailable.", none, none, none, strToL "normal"⟩]⟩

/-- The single (degraded) enriched move of `e0`. -/
def em0 : EnrichedMove :=
  ⟨⟨⟨strToL "tackle", strToL "https://pokeapi.co/api/v2/move/33/"⟩⟩,
   strToL "Description unavailable.", none, none, none, strToL "normal"⟩

/-!  ## Theorems  -/

/-- The filter predicate holds exactly on an exact, prefix, or whole-word match. -/
lemma matchesSearch_eq_true (nq : JStr) (e : NameEntry) :
    matchesSearch nq e = true ↔
      (jsToLower e.name = nq ∨ jsStartsWith (jsToLower e.name) nq = true
        ∨ nq ∈ jsSplitOn '-' (jsToLower e.name)) := by
  simp only [matchesSearch]
  by_cases h1 : jsToLower e.name = nq
  · simp [h1]
  · by_cases h2 : jsStartsWith (jsToLower e.name) nq = true
    · simp [h1, h2]
    · simp [h1, h2, List.any_eq_true, beq_iff_eq]

/-- Claim C1: for every name index and query, after normalizing the query
(lowercase then trim, as the source does) an entry is kept by the filter iff
its lowercased name equals the normalized query, starts with it, or has a
`'-'`-separated component equal to it; the match set is a sublist of the
index (insertion order preserved); and on the sample index the query
`"venusaur"` matches exactly the entry with identifier 3. -/
theorem c1_match_set_characterization :
    (∀ (idx : List NameEntry) (q : JStr) (e : NameEntry),
      e ∈ idx.filter (matchesSearch (jsTrim (jsToLower q))) ↔
        e ∈ idx ∧ (jsToLower e.name = jsTrim (jsToLower q)
          ∨ jsStartsWith (jsToLower e.name) (jsTrim (jsToLower q)) = true
          ∨ jsTrim (jsToLower q) ∈ jsSplitOn '-' (jsToLower e.name)))
    ∧ (∀ (idx : List NameEntry) (q : JStr),
        List.Sublist (idx.filter (matchesSearch (jsTrim (jsToLower q)))) idx)
    ∧ sampleIndex.filter (matchesSearch (jsTrim (jsToLower (strToL "venusaur"))))
        = [⟨strToL "venusaur-mega", some 3⟩] := by
  refine ⟨?_, ?_, by decide⟩
  · intro idx q e
    rw [List.mem_filter, matchesSearch_eq_true]
  · intro idx q
    exact List.filter_sublist idx

/-- Applying `Promise.all` to uniformly succeeding fetches yields the mapped list. -/
lemma promiseAll_ok {β α : Type} (l : List β) (f : β → α) :
    promiseAll l (fun x => Except.ok (f x)) = Except.ok (l.map f) := by
  induction l with
  | nil => rfl
  | cons x xs ih => simp [promiseAll, ih]

/-- Claim C2: in searching mode (non-empty term, non-empty index) with a record
fetcher that succeeds on every identifier, `loadPokemon` returns
`totalPages = ceil(matchCount / pageSize)` and the page slice
`matches[(page-1)*pageSize : page*pageSize]` of the ordered match set, each
identifier resolved through the record fetcher. -/
theorem c2_search_page_slice {α : Type} (idx : List NameEntry) (q : JStr) (page : Nat)
    (fetchList : Nat → Nat → FetchOutcome PokemonListResp) (f : Option Int → α)
    (hq : q ≠ []) (hidx : idx ≠ []) :
    loadPokemon idx q page fetchList (fun i => Except.ok (f i)) =
      Except.ok
        (ceilDiv (idx.filter (matchesSearch (jsTrim (jsToLower q)))).length ITEMS_PER_PAGE,
         (jsSlice ((page - 1) * ITEMS_PER_PAGE) (page * ITEMS_PER_PAGE)
            (idx.filter (matchesSearch (jsTrim (jsToLower q))))).map (fun p => f p.id)) := by
  have hlen : 0 < idx.length := List.length_pos.mpr hidx
  simp only [loadPokemon, if_pos (And.intro hq hlen), promiseAll_ok]

/-- Claim C2 witness: page size 12 and 13 matches (index `idx13`, query `"a"`)
give `totalPages = 2`, and page 2 resolves exactly one record. -/
theorem c2_search_page_slice_witness :
    loadPokemon idx13 (strToL "a") 2 (fun _ _ => FetchOutcome.httpError)
        (fun i => Except.ok i) = Except.ok (2, [some 13]) :=
  (c2_search_page_slice idx13 (strToL "a") 2 (fun _ _ => FetchOutcome.httpError)
      (fun i => i) (by decide) (by decide)).trans
    (congrArg Except.ok (by decide))

/-- Claim C3: a non-empty query with no matches against a non-empty index
yields `totalPages = 0` and an empty record list, for every page and every
fetch oracle; this empty-result success state is never the error state; and
entering the query resets `currentPage` to 1 (the clamp of the claim). -/
theorem c3_no_match_empty_result {α : Type} (idx : List NameEntry) (q : JStr)
    (hq : q ≠ []) (hidx : idx ≠ [])
    (hnone : idx.filter (matchesSearch (jsTrim (jsToLower q))) = []) :
    (∀ (page : Nat) (fetchList : Nat → Nat → FetchOutcome PokemonListResp)
        (fetchPoke : Option Int → Except Unit α),
      loadPokemon idx q page fetchList fetchPoke = Except.ok (0, []))
    ∧ (∀ (page : Nat) (fetchList : Nat → Nat → FetchOutcome PokemonListResp)
        (fetchPoke : Option Int → Except Unit α),
      loadPokemon idx q page fetchList fetchPoke ≠ Except.error ())
    ∧ (∀ (ctx : PageContext) (s : PageState) (ok : Bool) (s' : PageState),
        PageStep ctx s (UiEvent.searchChange q ok) s' → s'.currentPage = 1) := by
  have hlen : 0 < idx.length := List.length_pos.mpr hidx
  have h1 : ∀ (page : Nat) (fetchList : Nat → Nat → FetchOutcome PokemonListResp)
      (fetchPoke : Option Int → Except Unit α),
      loadPokemon idx q page fetchList fetchPoke = Except.ok (0, []) := by
    intro page fetchList fetchPoke
    simp only [loadPokemon, if_pos (And.intro hq hlen), hnone]
    simp [jsSlice, promiseAll, ceilDiv, ITEMS_PER_PAGE]
  refine ⟨h1, fun page fetchList fetchPoke hc => by
    rw [h1 page fetchList fetchPoke] at hc
    exact Except.noConfusion hc, ?_⟩
  intro ctx s ok s' hstep
  cases hstep
  rfl

/-- Claim C3 witness: concrete scenario 1 — query `"saur"` on the sample index
matches nothing and produces the empty-result state. -/
theorem c3_no_match_empty_result_witness :
    loadPokemon sampleIndex (strToL "saur") 1 (fun _ _ => FetchOutcome.httpError)
        (fun i => Except.ok i) = Except.ok (0, ([] : List (Option Int))) :=
  (c3_no_match_empty_result sampleIndex (strToL "saur")
      (by decide) (by decide) (by decide)).1 1 _ _

/-- In the source filter, the empty normalized query is a prefix of every
name, so every entry matches. -/
lemma matchesSearch_nil (e : NameEntry) : matchesSearch [] e = true := by
  simp only [matchesSearch, jsStartsWith]
  by_cases h1 : jsToLower e.name = []
  · simp [h1]
  · simp [h1, List.isPrefixOf]

/-- Claim C10: a non-empty query that normalizes to the empty string (e.g. all
whitespace) still selects the searching branch when the index is non-empty,
and the empty query matches every entry: `totalPages = ceil(indexSize / 12)`
and each page is the corresponding slice of the whole index, in index order
— browsing semantics are not used (the result is independent of the list
fetcher). -/
theorem c10_whitespace_query_matches_all {α : Type} (idx : List NameEntry) (q : JStr)
    (page : Nat) (fetchList : Nat → Nat → FetchOutcome PokemonListResp)
    (f : Option Int → α)
    (hq : q ≠ []) (hw : jsTrim (jsToLower q) = []) (hidx : idx ≠ []) :
    loadPokemon idx q page fetchList (fun i => Except.ok (f i)) =
      Except.ok (ceilDiv idx.length ITEMS_PER_PAGE,
        (jsSlice ((page - 1) * ITEMS_PER_PAGE) (page * ITEMS_PER_PAGE) idx).map
          (fun p => f p.id)) := by
  have hlen : 0 < idx.length := List.length_pos.mpr hidx
  have hfilter : idx.filter (matchesSearch (jsTrim (jsToLower q))) = idx := by
    rw [hw]
    exact List.filter_eq_self.mpr (fun a _ => matchesSearch_nil a)
  simp only [loadPokemon, if_pos (And.intro hq hlen), hfilter, promiseAll_ok]

/-- Claim C10 witness: the query `" "` (one space) against the sample index
yields all three entries on one page. -/
theorem c10_whitespace_query_matches_all_witness :
    loadPokemon sampleIndex (strToL " ") 1 (fun _ _ => FetchOutcome.httpError)
        (fun i => Except.ok i) = Except.ok (1, [some 1, some 2, some 3]) :=
  (c10_whitespace_query_matches_all sampleIndex (strToL " ") 1
      (fun _ _ => FetchOutcome.httpError) (fun i => i)
      (by decide) (by decide) (by decide)).trans
    (congrArg Except.ok (by decide))

/-- Claim C4: the name-index builder returns the empty sequence on any failure
(non-2xx or transport error) instead of propagating an error, and with an
empty index `loadPokemon` delegates to the browsing branch for every query —
a failed index fetch never produces an error state by itself. -/
theorem c4_index_failsoft {α : Type} :
    (∀ r : FetchOutcome PokemonListResp,
      (r = FetchOutcome.httpError ∨ r = FetchOutcome.failure) →
        fetchAllPokemonNames r = [])
    ∧ (∀ (q : JStr) (page : Nat) (fetchList : Nat → Nat → FetchOutcome PokemonListResp)
        (fetchPoke : Option Int → Except Unit α),
        loadPokemon [] q page fetchList fetchPoke =
          loadPokemonBrowse page fetchList fetchPoke) := by
  constructor
  · rintro r (rfl | rfl) <;> rfl
  · intro q page fetchList fetchPoke
    simp [loadPokemon]

/-- Claim C4 witness: a transport error yields the empty index, and with the
empty index the query `"pikachu"` is served by the browsing branch. -/
theorem c4_index_failsoft_witness :
    fetchAllPokemonNames FetchOutcome.failure = []
    ∧ loadPokemon ([] : List NameEntry) (strToL "pikachu") 1
        (fun _ _ => FetchOutcome.httpError) (fun i => Except.ok i) =
      loadPokemonBrowse 1 (fun _ _ => FetchOutcome.httpError)
        (fun i : Option Int => Except.ok i) :=
  ⟨(@c4_index_failsoft (Option Int)).1 _ (Or.inr rfl),
   (@c4_index_failsoft (Option Int)).2 (strToL "pikachu") 1 _ _⟩

/-- Claim C5: `fetchPokemon` raises to its caller exactly when the primary
fetch fails, whatever the sub-item oracles do; with a successful primary
fetch it always returns an enriched record. -/
theorem c5_primary_failure_iff :
    ∀ (abilityFetch : JStr → FetchOutcome AbilityDetails)
      (moveFetch : JStr → FetchOutcome MoveDetails)
      (primary : FetchOutcome PokemonData),
      ((fetchPokemon primary abilityFetch moveFetch = Except.error ()) ↔
        (primary = FetchOutcome.httpError ∨ primary = FetchOutcome.failure))
      ∧ (∀ p : PokemonData, ∃ e : EnrichedPokemon,
          fetchPokemon (FetchOutcome.ok p) abilityFetch moveFetch = Except.ok e) := by
  intro abilityFetch moveFetch primary
  constructor
  · cases primary <;> simp [fetchPokemon]
  · intro p
    exact ⟨_, rfl⟩

/-- Claim C9: identifier extraction takes the numeric path segment before the
trailing segment of a well-formed reference; on a malformed reference the
source silently produces `NaN` (`none`) — it does not raise the
`DataShapeError` the specification prescribes. -/
theorem c9_extraction_silent_nan :
    extractIdFromUrl (strToL "https://pokeapi.co/api/v2/pokemon/25/") = some 25
    ∧ extractIdFromUrl (strToL "oops") = none := by
  decide

/-- Shape of the enriched record produced from a successful primary fetch. -/
lemma fetchPokemon_ok_shape {p : PokemonData}
    {abilityFetch : JStr → FetchOutcome AbilityDetails}
    {moveFetch : JStr → FetchOutcome MoveDetails} {e : EnrichedPokemon}
    (h : fetchPokemon (FetchOutcome.ok p) abilityFetch moveFetch = Except.ok e) :
    e.abilities = (p.abilities.take 4).map
        (fun abilityData => enrichAbility (abilityFetch abilityData.ability.url) abilityData)
    ∧ e.moves = (p.moves.take 20).map
        (fun moveData => enrichMove (moveFetch moveData.move.url) moveData) := by
  simp only [fetchPokemon, Except.ok.injEq] at h
  subst h
  exact ⟨rfl, rfl⟩

/-- Enrichment preserves the original ability slot. -/
lemma enrichAbility_orig (r : FetchOutcome AbilityDetails) (a : AbilitySlot) :
    (enrichAbility r a).orig = a := by
  cases r with
  | ok d =>
    simp only [enrichAbility]
    cases d.effect_entries.find? (fun entry => entry.language.name == strToL "en") <;> rfl
  | httpError => rfl
  | failure => rfl

/-- Enrichment preserves the original move slot. -/
lemma enrichMove_orig (r : FetchOutcome MoveDetails) (m : MoveSlot) :
    (enrichMove r m).orig = m := by
  cases r <;> rfl

/-- Claim C6: from a successful primary fetch the enriched record has exactly
`min(4, |abilities|)` bundle-A items and `min(20, |moves|)` bundle-B items,
in the original positional order, and every enriched entry is a function of
its own dependent fetch alone — so a failing sub-fetch degrades only its own
entry while the others keep their fetched data. -/
theorem c6_enrichment_counts_and_locality {p : PokemonData}
    {abilityFetch : JStr → FetchOutcome AbilityDetails}
    {moveFetch : JStr → FetchOutcome MoveDetails} {e : EnrichedPokemon}
    (h : fetchPokemon (FetchOutcome.ok p) abilityFetch moveFetch = Except.ok e) :
    e.abilities.length = min 4 p.abilities.length
    ∧ e.moves.length = min 20 p.moves.length
    ∧ e.abilities.map (fun ea => ea.orig) = p.abilities.take 4
    ∧ e.moves.map (fun em => em.orig) = p.moves.take 20
    ∧ (∀ ea ∈ e.abilities, ea = enrichAbility (abilityFetch ea.orig.ability.url) ea.orig)
    ∧ (∀ em ∈ e.moves, em = enrichMove (moveFetch em.orig.move.url) em.orig) := by
  obtain ⟨ha, hm⟩ := fetchPokemon_ok_shape h
  refine ⟨?_, ?_, ?_, ?_, ?_, ?_⟩
  · rw [ha, List.length_map, List.length_take]
  · rw [hm, List.length_map, List.length_take]
  · rw [ha, List.map_map,
      show ((fun ea : EnrichedAbility => ea.orig) ∘
          fun abilityData => enrichAbility (abilityFetch abilityData.ability.url) abilityData) = id
        from funext fun a => enrichAbility_orig _ _,
      List.map_id]
  · rw [hm, List.map_map,
      show ((fun em : EnrichedMove => em.orig) ∘
          fun moveData => enrichMove (moveFetch moveData.move.url) moveData) = id
        from funext fun m => enrichMove_orig _ _,
      List.map_id]
  · intro ea hmem
    rw [ha] at hmem
    obtain ⟨a, _, rfl⟩ := List.mem_map.mp hmem
    rw [enrichAbility_orig]
  · intro em hmem
    rw [hm] at hmem
    obtain ⟨m, _, rfl⟩ := List.mem_map.mp hmem
    rw [enrichMove_orig]

/-- Claim C6 witness: on the one-ability, one-move record `p0` with both
sub-fetches failing, the enriched record is `e0` with the expected counts
and original slots. -/
theorem c6_enrichment_counts_and_locality_witness :
    fetchPokemon (FetchOutcome.ok p0) (fun _ => FetchOutcome.httpError)
        (fun _ => FetchOutcome.failure) = Except.ok e0
    ∧ e0.abilities.length = min 4 p0.abilities.length
    ∧ e0.moves.length = min 20 p0.moves.length
    ∧ e0.moves.map (fun em => em.orig) = p0.moves.take 20 := by
  have h : fetchPokemon (FetchOutcome.ok p0) (fun _ => FetchOutcome.httpError)
      (fun _ => FetchOutcome.failure) = Except.ok e0 := rfl
  obtain ⟨h1, h2, _, h4, _, _⟩ := c6_enrichment_counts_and_locality h
  exact ⟨h, h1, h2, h4⟩

/-- Claim C7: a bundle-B sub-item whose dependent fetch timed out / failed in
transport or returned non-2xx is enriched with the sentinel description, the
sentinel type `"normal"`, and unset numeric fields (`power`, `accuracy`,
`pp`). -/
theorem c7_move_sentinel_on_failure {p : PokemonData}
    {abilityFetch : JStr → FetchOutcome AbilityDetails}
    {moveFetch : JStr → FetchOutcome MoveDetails} {e : EnrichedPokemon}
    {em : EnrichedMove}
    (h : fetchPokemon (FetchOutcome.ok p) abilityFetch moveFetch = Except.ok e)
    (hmem : em ∈ e.moves)
    (hf : moveFetch em.orig.move.url = FetchOutcome.failure
      ∨ moveFetch em.orig.move.url = FetchOutcome.httpError) :
    em.description = strToL "Description unavailable."
    ∧ em.move_type = strToL "normal"
    ∧ em.power = none ∧ em.accuracy = none ∧ em.pp = none := by
  obtain ⟨_, hm⟩ := fetchPokemon_ok_shape h
  rw [hm] at hmem
  obtain ⟨m, _, rfl⟩ := List.mem_map.mp hmem
  rw [enrichMove_orig] at hf
  rcases hf with hf | hf <;> rw [hf] <;> exact ⟨rfl, rfl, rfl, rfl, rfl⟩

/-- Claim C7 witness: the timed-out move of `p0`'s enrichment carries exactly
the sentinel fields. -/
theorem c7_move_sentinel_on_failure_witness :
    em0.description = strToL "Description unavailable."
    ∧ em0.move_type = strToL "normal"
    ∧ em0.power = none ∧ em0.accuracy = none ∧ em0.pp = none :=
  @c7_move_sentinel_on_failure p0 (fun _ => FetchOutcome.httpError)
    (fun _ => FetchOutcome.failure) e0 em0
    rfl (by decide) (Or.inl rfl)

/-- Bounds of membership in an integer range. -/
lemma intRange_bounds {lo hi p : Int} (h : p ∈ intRange lo hi) : lo ≤ p ∧ p ≤ hi := by
  unfold intRange at h
  obtain ⟨i, hi2, rfl⟩ := List.mem_map.mp h
  rw [List.mem_range] at hi2
  omega

/-- A `some` value never sits in a conditional ellipsis singleton. -/
lemma some_not_mem_ite_none {b : Prop} [Decidable b] {p : Int} :
    some p ∉ (if b then ([none] : List (Option Int)) else []) := by
  split <;> simp

/-- Every numbered button produced by `getPageNumbers` lies between 1 and
`max totalPages 1`. -/
lemma getPageNumbers_bounds {c t p : Int} (h : some p ∈ getPageNumbers c t) :
    1 ≤ p ∧ p ≤ max t 1 := by
  unfold getPageNumbers at h
  split at h
  case isTrue h7 =>
    rcases List.mem_append.mp h with h | h
    · rcases List.mem_append.mp h with h | h
      · simp only [List.mem_singleton, Option.some.injEq] at h
        omega
      · obtain ⟨x, hx, hxe⟩ := List.mem_map.mp h
        obtain rfl : x = p := Option.some.inj hxe
        have := intRange_bounds hx
        omega
    · split at h
      · simp only [List.mem_singleton, Option.some.injEq] at h
        omega
      · simp at h
  case isFalse h7 =>
    rcases List.mem_append.mp h with h | h
    · rcases List.mem_append.mp h with h | h
      · rcases List.mem_append.mp h with h | h
        · rcases List.mem_append.mp h with h | h
          · simp only [List.mem_singleton, Option.some.injEq] at h
            omega
          · exact absurd h some_not_mem_ite_none
        · obtain ⟨x, hx, hxe⟩ := List.mem_map.mp h
          obtain rfl : x = p := Option.some.inj hxe
          have := intRange_bounds hx
          omega
      · exact absurd h some_not_mem_ite_none
    · split at h
      · simp only [List.mem_singleton, Option.some.injEq] at h
        omega
      · simp at h

/-- A reload with a successful list fetch never yields negative pages. -/
lemma recompute_true_nonneg (ctx : PageContext) (s : PageState) :
    0 ≤ recompute ctx true s := by
  unfold recompute
  split
  · exact Int.natCast_nonneg _
  · rw [if_pos rfl]
    exact Int.natCast_nonneg _

/-- Function `recompute` with a successful list fetch reads only the search term and
the index. -/
lemma recompute_true_proj (ctx : PageContext) (s1 s2 : PageState)
    (hterm : s1.searchTerm = s2.searchTerm) (hidx : s1.index = s2.index) :
    recompute ctx true s1 = recompute ctx true s2 := by
  unfold recompute
  rw [hterm, hidx]
  split
  · rfl
  · rfl

/-- The initial state of the fixed-index machine satisfies the invariant. -/
lemma stateInv_init (ctx : PageContext) : StateInv ctx ⟨[], 1, 0, ctx.fullIndex⟩ := by
  unfold StateInv
  refine ⟨?_, ?_, ?_, rfl, Or.inr ⟨rfl, rfl⟩⟩
  · show (0 : Int) ≤ 1
    omega
  · show (0 : Int) ≤ 0
    omega
  · show (1 : Int) ≤ max 0 1
    omega

/-- The invariant is preserved by every user event whose reload succeeds. -/
lemma stateInv_step {ctx : PageContext} {s : PageState} {e : UiEvent} {s' : PageState}
    (hinv : StateInv ctx s) (hstep : PageStep ctx s e s') (hgood : GoodEv e) :
    StateInv ctx s' := by
  obtain ⟨hc0, ht0, hcb, hidx, hfresh⟩ := hinv
  unfold StateInv
  cases hstep with
  | searchChange q ok =>
    cases hgood
    refine ⟨?_, ?_, ?_, hidx, ?_⟩
    · show (0 : Int) ≤ 1
      omega
    · exact recompute_true_nonneg ctx _
    · show (1 : Int) ≤ max (recompute ctx true { s with searchTerm := q, currentPage := 1 }) 1
      omega
    · exact Or.inl (recompute_true_proj ctx _ _ rfl rfl).symm
  | prevPage ok h =>
    cases hgood
    have heq : recompute ctx true { s with currentPage := max (s.currentPage - 1) 1 }
        = recompute ctx true s := recompute_true_proj ctx _ _ rfl rfl
    refine ⟨?_, ?_, ?_, hidx, ?_⟩
    · show (0 : Int) ≤ max (s.currentPage - 1) 1
      omega
    · exact recompute_true_nonneg ctx _
    · show max (s.currentPage - 1) 1
        ≤ max (recompute ctx true { s with currentPage := max (s.currentPage - 1) 1 }) 1
      rw [heq]
      rcases hfresh with hfr | ⟨hc1, _⟩
      · rw [← hfr]
        omega
      · exact absurd hc1 h
    · exact Or.inl (recompute_true_proj ctx _ _ rfl rfl).symm
  | nextPage ok h =>
    cases hgood
    have heq : recompute ctx true { s with currentPage := min (s.currentPage + 1) s.totalPages }
        = recompute ctx true s := recompute_true_proj ctx _ _ rfl rfl
    refine ⟨?_, ?_, ?_, hidx, ?_⟩
    · show (0 : Int) ≤ min (s.currentPage + 1) s.totalPages
      omega
    · exact recompute_true_nonneg ctx _
    · show min (s.currentPage + 1) s.totalPages
        ≤ max (recompute ctx true { s with currentPage := min (s.currentPage + 1) s.totalPages }) 1
      rw [heq]
      rcases hfresh with hfr | ⟨hc1, ht1⟩
      · rw [← hfr]
        omega
      · rw [hc1, ht1]
        have := recompute_true_nonneg ctx s
        omega
    · exact Or.inl (recompute_true_proj ctx _ _ rfl rfl).symm
  | selectPage p ok h =>
    cases hgood
    have hb := getPageNumbers_bounds h
    have heq : recompute ctx true { s with currentPage := p } = recompute ctx true s :=
      recompute_true_proj ctx _ _ rfl rfl
    refine ⟨?_, ?_, ?_, hidx, ?_⟩
    · show (0 : Int) ≤ p
      omega
    · exact recompute_true_nonneg ctx _
    · show p ≤ max (recompute ctx true { s with currentPage := p }) 1
      rw [heq]
      rcases hfresh with hfr | ⟨hc1, ht1⟩
      · rw [← hfr]
        omega
      · rw [ht1] at hb
        have := recompute_true_nonneg ctx s
        omega
    · exact Or.inl (recompute_true_proj ctx _ _ rfl rfl).symm
  | indexLoaded ok =>
    cases hgood

/-- Every state of the restricted machine satisfies the invariant. -/
lemma pageReachableOk_inv {ctx : PageContext} {s : PageState}
    (h : PageReachableOk ctx s) : StateInv ctx s := by
  induction h with
  | init => exact stateInv_init ctx
  | step _ hs hg ih => exact stateInv_step ih hs hg

/-- Claim C8 counterexample: the invariant `currentPage ≤ max(totalPages, 1)`
fails in a reachable state.  Trace: search `"x"` while the index has not yet
arrived (browsing semantics over 37 records gives 4 pages), click Next to
page 2, then the index arrives and the effect reruns in the searching branch:
`"x"` matches nothing, `totalPages` becomes 0, but `currentPage` stays 2. -/
theorem c8_page_invariant_counterexample :
    PageReachable ctx0 sBad ∧ ¬ (sBad.currentPage ≤ max sBad.totalPages 1) := by
  constructor
  · have r1 : PageReachable ctx0 (⟨strToL "x", 1, 4, []⟩ : PageState) :=
      PageReachable.step PageReachable.init
        (PageStep.searchChange initialState (strToL "x") true)
    have r2 : PageReachable ctx0 (⟨strToL "x", 2, 4, []⟩ : PageState) :=
      PageReachable.step r1
        (PageStep.nextPage (⟨strToL "x", 1, 4, []⟩ : PageState) true (by decide))
    exact PageReachable.step r2
      (PageStep.indexLoaded (⟨strToL "x", 2, 4, []⟩ : PageState) true)
  · decide

/-- Claim C8 amended: provided the name index does not change mid-session and
every page-list fetch succeeds, every reachable state satisfies
`currentPage ≤ max(totalPages, 1)`; and, unconditionally, every search-term
change resets `currentPage` to 1. -/
theorem c8_page_invariant_amended (ctx : PageContext) :
    (∀ s : PageState, PageReachableOk ctx s → s.currentPage ≤ max s.totalPages 1)
    ∧ (∀ (s : PageState) (q : JStr) (ok : Bool) (s' : PageState),
        PageStep ctx s (UiEvent.searchChange q ok) s' → s'.currentPage = 1) := by
  constructor
  · intro s hs
    exact (pageReachableOk_inv hs).2.2.1
  · intro s q ok s' hstep
    cases hstep
    rfl

/-- Claim C8 amended witness: the initial state of the fixed-index machine
satisfies the bound, and a concrete search event lands on page 1. -/
theorem c8_page_invariant_amended_witness :
    PageState.currentPage ⟨[], 1, 0, sampleIndex⟩
        ≤ max (PageState.totalPages ⟨[], 1, 0, sampleIndex⟩) 1
    ∧ PageState.currentPage
        (reload ctx0 true ⟨strToL "mew", 1, 9, sampleIndex⟩) = 1 :=
  ⟨(c8_page_invariant_amended ctx0).1 _ PageReachableOk.init,
   (c8_page_invariant_amended ctx0).2 ⟨[], 5, 9, sampleIndex⟩ (strToL "mew") true _
     (PageStep.searchChange ⟨[], 5, 9, sampleIndex⟩ (strToL "mew") true)⟩
